/-
Verification of the emmett Firestore/RealtimeDB event-store packages.

Shallow embedding of:
  * packages/emmett-firestore/src/eventStore/storage/appendToStream.ts
  * packages/emmett-firestore/src/eventStore/storage/readStream.ts (and the
    variant returning an explicit streamExists flag)
  * packages/emmett-firestore/src/eventStore/storage/aggregateStream.ts
  * packages/emmett-firestore/src/eventStore/consumers/firestoreEventStoreConsumer.ts
    (processWithRetry and the polling step)
  * packages/emmett-realtimedb/src/eventStore/projections -
    realtimeDBMultiStreamProjection (grouping, per-document fold, write/delete)

Conventions:
  * bigint values (stream versions, global positions) are modelled as Nat;
    the sentinel STREAM_DOES_NOT_EXIST is modelled by `none` in `Option Nat`.
  * JavaScript `Number(bigint)` narrowing is modelled by `roundToDouble`,
    round-to-nearest-even at 53 significant bits on integers.
  * Firestore documents/collections are association lists; a transaction that
    throws before its writes leaves the store unchanged (`runAppend`).
  * Event payload and custom metadata are opaque type parameters.
  * Timestamps (createdAt/updatedAt) are not modelled: no claim mentions them.
-/
import Mathlib

namespace Emmett

/-! ## JavaScript Number narrowing (IEEE-754 binary64 on integers)

`appendToStream` persists bigint stream versions and global positions through
`Number(...)`; a nonnegative integer survives exactly when its 53-bit
round-to-nearest-even rounding is itself. -/

/-- Fuel-driven binary length: `bitLengthAux fuel n` counts the halvings of
`n` down to 0, for any `fuel ≥ that count`. -/
def bitLengthAux : Nat → Nat → Nat
  | _, 0 => 0
  | 0, _ => 0
  | f + 1, n => bitLengthAux f (n / 2) + 1

/-- Number of bits of `n` (0 for 0); `n` itself is always enough fuel. -/
def bitLength (n : Nat) : Nat := bitLengthAux n n

/-- Round a nonnegative integer to the nearest IEEE-754 binary64 value
(round half to even), returned as the integer value of that double.
Every integer up to `2^53` is exactly representable, so those are fixed. -/
def roundToDouble (n : Nat) : Nat :=
  if n ≤ 2 ^ 53 then n
  else
    let e := bitLength n - 53
    let q := n / 2 ^ e
    let r := n % 2 ^ e
    let half := 2 ^ (e - 1)
    if r < half then q * 2 ^ e
    else if half < r then (q + 1) * 2 ^ e
    else if q % 2 = 0 then q * 2 ^ e else (q + 1) * 2 ^ e

/-! ## Data model (Firestore event store) -/

/-- An event handed to `appendToStream` (`type`, `data`, `metadata`). -/
structure InputEvent (α μ : Type) where
  type : String
  data : α
  metadata : μ
  deriving DecidableEq

/-- A persisted event document in a stream's `events` subcollection
(timestamp omitted).  `globalPosition` and `streamVersion` hold what
`Number(...)` stored, i.e. the rounded double values. -/
structure StoredEvent (α μ : Type) where
  type : String
  data : α
  metadata : μ
  globalPosition : Nat
  streamVersion : Nat
  deriving DecidableEq

/-- The per-stream metadata document (`version` as stored by `Number(...)`). -/
structure StreamDoc where
  version : Nat
  deriving DecidableEq

/-- The Firestore state used by the event store: the streams collection, each
stream's `events` subcollection keyed by the zero-padded version string, and
the `_counters/global_position` document. -/
structure Store (α μ : Type) where
  streams : List (String × StreamDoc)
  events : List (String × List (String × StoredEvent α μ))
  counter : Option Nat
  deriving DecidableEq

/-- Association-list lookup. -/
def lookupA {β : Type} : List (String × β) → String → Option β
  | [], _ => none
  | (k, v) :: rest, key => if k = key then some v else lookupA rest key

/-- Association-list insert/replace. -/
def setA {β : Type} : List (String × β) → String → β → List (String × β)
  | [], key, v => [(key, v)]
  | (k, w) :: rest, key, v =>
    if k = key then (k, v) :: rest else (k, w) :: setA rest key v

/-- `String(streamVersion).padStart(10, '0')` — the event document id. -/
def padKey (n : Nat) : String :=
  let s := toString n
  String.mk (List.replicate (10 - s.length) '0') ++ s

/-- The streams collection's doc for a stream name. -/
def Store.streamDoc {α μ : Type} (s : Store α μ) (streamName : String) :
    Option StreamDoc :=
  lookupA s.streams streamName

/-- `BigInt(streamDoc.data()!.version)` when the stream exists, the
`STREAM_DOES_NOT_EXIST` sentinel (`none`) otherwise. -/
def Store.currentVersion {α μ : Type} (s : Store α μ) (streamName : String) :
    Option Nat :=
  (s.streamDoc streamName).map StreamDoc.version

/-- A stream's `events` subcollection (empty when absent). -/
def Store.eventsOf {α μ : Type} (s : Store α μ) (streamName : String) :
    List (String × StoredEvent α μ) :=
  (lookupA s.events streamName).getD []

/-! ## appendToStream -/

/-- emmett's `ExpectedStreamVersion`: the three sentinels plus an exact
bigint. -/
inductive ExpectedStreamVersion where
  | noConcurrencyCheck : ExpectedStreamVersion
  | streamDoesNotExist : ExpectedStreamVersion
  | streamExists : ExpectedStreamVersion
  | exact : Nat → ExpectedStreamVersion
  deriving DecidableEq

/-- Errors thrown by `appendToStream`: the empty-batch guard and
`ExpectedVersionConflictError(current, expected)`. -/
inductive AppendError where
  | invalidArgument : AppendError
  | conflict : Option Nat → ExpectedStreamVersion → AppendError
  deriving DecidableEq

/-- `AppendToStreamResult`. -/
structure AppendToStreamResult where
  nextExpectedStreamVersion : Nat
  createdNewStream : Bool
  deriving DecidableEq

/-- The optimistic-concurrency check of `appendToStream` (lines 42-65):
returns the conflict it throws, if any. -/
def versionCheck (expected : ExpectedStreamVersion) (current : Option Nat) :
    Option AppendError :=
  match expected, current with
  | .streamDoesNotExist, some v => some (.conflict (some v) .streamDoesNotExist)
  | .streamExists, none => some (.conflict none .streamExists)
  | .exact v, some w =>
    if v = w then none else some (.conflict (some w) (.exact v))
  | .exact v, none => some (.conflict none (.exact v))
  | _, _ => none

/-- The event-write loop: one document per event, keyed by the padded stream
version, persisting `Number(position)` values. -/
def writeEvents {α μ : Type} :
    List (InputEvent α μ) → Nat → Nat → List (String × StoredEvent α μ)
  | [], _, _ => []
  | e :: rest, sv, gp =>
    (padKey sv,
      { type := e.type, data := e.data, metadata := e.metadata
        globalPosition := roundToDouble gp
        streamVersion := roundToDouble sv }) :: writeEvents rest (sv + 1) (gp + 1)

/-- `appendToStream` (storage/appendToStream.ts).  Returns the post-transaction
store and the result, or the error thrown inside the transaction. -/
def appendToStream {α μ : Type} (s : Store α μ) (streamName : String)
    (events : List (InputEvent α μ)) (expected : ExpectedStreamVersion) :
    Except AppendError (Store α μ × AppendToStreamResult) :=
  if events.isEmpty then .error .invalidArgument
  else
    let current := s.currentVersion streamName
    match versionCheck expected current with
    | some err => .error err
    | none =>
      -- getNextGlobalPosition: read counter (0 when absent), reserve a block
      let currentPosition := s.counter.getD 0
      let globalPosition := currentPosition
      -- nextVersion = currentVersion + 1n when the stream exists, else 0n
      let nextVersion := match current with
        | some v => v + 1
        | none => 0
      let newEvents := writeEvents events nextVersion globalPosition
      let newStreamVersion := nextVersion + events.length - 1
      let s' : Store α μ :=
        { streams := setA s.streams streamName
            { version := roundToDouble newStreamVersion }
          events := setA s.events streamName (s.eventsOf streamName ++ newEvents)
          counter := some (currentPosition + events.length) }
      .ok (s', { nextExpectedStreamVersion := newStreamVersion
                 createdNewStream := (s.streamDoc streamName).isNone })

/-- The transaction wrapper: a throw inside `runTransaction` rolls every
write back, so an erroring append leaves the store as it was. -/
def runAppend {α μ : Type} (s : Store α μ) (streamName : String)
    (events : List (InputEvent α μ)) (expected : ExpectedStreamVersion) :
    Store α μ × Except AppendError AppendToStreamResult :=
  match appendToStream s streamName events expected with
  | .ok (s', r) => (s', .ok r)
  | .error e => (s, .error e)

/-! ## readStream -/

/-- Metadata attached to a read event: the persisted metadata spread together
with `streamName`, `streamPosition` and `globalPosition`. -/
structure ReadEventMetadata (μ : Type) where
  custom : μ
  streamName : String
  streamPosition : Nat
  globalPosition : Nat
  deriving DecidableEq

/-- An event as returned by `readStream`. -/
structure ReadEvent (α μ : Type) where
  type : String
  data : α
  metadata : ReadEventMetadata μ
  deriving DecidableEq

/-- `ReadStreamOptions` (`from`/`to` act on the padded document id, `maxCount`
limits the query). -/
structure ReadStreamOptions where
  fromVersion : Option Nat := none
  toVersion : Option Nat := none
  maxCount : Option Nat := none
  deriving DecidableEq

/-- `ReadStreamResult` of storage/readStream.ts (no explicit exists flag;
`currentStreamVersion = none` is the `STREAM_DOES_NOT_EXIST` sentinel). -/
structure ReadStreamResult (α μ : Type) where
  currentStreamVersion : Option Nat
  events : List (ReadEvent α μ)
  deriving DecidableEq

/-- `ReadStreamResult` of the variant readStream that also returns
`streamExists`. -/
structure ReadStreamResultEx (α μ : Type) where
  currentStreamVersion : Option Nat
  events : List (ReadEvent α μ)
  streamExists : Bool
  deriving DecidableEq

/-- The `where('__name__', '>=' / '<=')` filters and the `limit` clause over a
stream's events subcollection, which Firestore returns in `__name__` order
(the model keeps the subcollection in that order: `appendToStream` writes keys
in increasing order). -/
def applyQuery {α μ : Type} (docs : List (String × StoredEvent α μ))
    (options : ReadStreamOptions) : List (String × StoredEvent α μ) :=
  let afterFrom := match options.fromVersion with
    | some f => docs.filter fun kv => !decide (kv.1 < padKey f)
    | none => docs
  let afterTo := match options.toVersion with
    | some t => afterFrom.filter fun kv => !decide (padKey t < kv.1)
    | none => afterFrom
  match options.maxCount with
  | some m => afterTo.take m
  | none => afterTo

/-- Mapping of a stored event document to a `ReadEvent`
(`BigInt(data.streamVersion)` / `BigInt(data.globalPosition)`). -/
def toReadEvent {α μ : Type} (streamName : String) (e : StoredEvent α μ) :
    ReadEvent α μ :=
  { type := e.type, data := e.data
    metadata :=
      { custom := e.metadata, streamName := streamName
        streamPosition := e.streamVersion
        globalPosition := e.globalPosition } }

/-- `readStream` (storage/readStream.ts). -/
def readStream {α μ : Type} (s : Store α μ) (streamName : String)
    (options : ReadStreamOptions) : ReadStreamResult α μ :=
  match s.streamDoc streamName with
  | none => { currentStreamVersion := none, events := [] }
  | some doc =>
    let snapshot := applyQuery (s.eventsOf streamName) options
    { currentStreamVersion := some doc.version
      events := snapshot.map fun kv => toReadEvent streamName kv.2 }

/-- The readStream variant that reports `streamExists` explicitly (and
defaults a missing stored version to 0). -/
def readStreamWithExists {α μ : Type} (s : Store α μ) (streamName : String)
    (options : ReadStreamOptions) : ReadStreamResultEx α μ :=
  match s.streamDoc streamName with
  | none => { currentStreamVersion := none, events := [], streamExists := false }
  | some doc =>
    let snapshot := applyQuery (s.eventsOf streamName) options
    { currentStreamVersion := some doc.version
      events := snapshot.map fun kv => toReadEvent streamName kv.2
      streamExists := true }

/-! ## aggregateStream -/

/-- `AggregateStreamResult`. -/
structure AggregateStreamResult (σ : Type) where
  state : σ
  currentStreamVersion : Option Nat
  streamExists : Bool

/-- `aggregateStreamImpl` (storage/aggregateStream.ts): delegate to
`readStream`, return the unfolded initial state for a missing stream, left-fold
`evolve` over the events otherwise. -/
def aggregateStream {α μ σ : Type} (s : Store α μ) (streamName : String)
    (evolve : σ → ReadEvent α μ → σ) (initialState : Unit → σ)
    (readOptions : ReadStreamOptions) : AggregateStreamResult σ :=
  let result := readStream s streamName readOptions
  match result.currentStreamVersion with
  | none =>
    { state := initialState ()
      currentStreamVersion := none
      streamExists := false }
  | some v =>
    { state := result.events.foldl evolve (initialState ())
      currentStreamVersion := some v
      streamExists := true }

/-! ## Catch-up consumer: processWithRetry and the polling step

A processor's `handle` is user-supplied code that either resolves or throws;
its body is outside the event-store package, so a processor is abstracted as
an outcome oracle: `p n` tells whether its `n`-th invocation (0-based)
succeeds.  The consumer carries each processor together with its invocation
count. -/

/-- A registered processor, abstracted by the outcome of each invocation. -/
def Processor : Type := Nat → Bool

/-- `retryBackoff` configuration. -/
inductive Backoff where
  | linear : Backoff
  | exponential : Backoff
  deriving DecidableEq

/-- The backoff delay (ms) computed for retry `attempt` (0-based):
`Math.pow(2, attempt) * 1000` for exponential, `(attempt + 1) * 1000` for
linear. -/
def delayFor (backoff : Backoff) (attempt : Nat) : Nat :=
  match backoff with
  | .exponential => 2 ^ attempt * 1000
  | .linear => (attempt + 1) * 1000

/-- One pass of `for (const processor of processors) await processor.handle`:
processors run in order until one throws; every invoked processor's count
increments; a throw skips the rest of the pass.  Returns the updated
processor list and whether the whole pass succeeded. -/
def runPass : List (Processor × Nat) → List (Processor × Nat) × Bool
  | [] => ([], true)
  | (p, c) :: rest =>
    if p c then
      let (rest', ok) := runPass rest
      ((p, c + 1) :: rest', ok)
    else ((p, c + 1) :: rest, false)

/-- Observable outcome of `processWithRetry`: final processor states, how many
successful full passes delivered the page, how many times the error hook ran,
the backoff delays awaited (in order), and whether it completed without
rethrowing. -/
structure RetryResult where
  procs : List (Processor × Nat)
  deliveries : Nat
  hookCalls : Nat
  delays : List Nat
  success : Bool

/-- `processWithRetry`, recursing on the remaining retry budget
(`attempt = maxRetries - remaining`, so the initial call has
`remaining = maxRetries`).  On a failed pass with `attempt < maxRetries` it
waits `delayFor backoff attempt` and retries; once the budget is exhausted it
runs the `onError` hook once per event of the page and rethrows. -/
def processWithRetryAux (maxRetries eventsLen : Nat) (hasHook : Bool)
    (backoff : Backoff) :
    List (Processor × Nat) → Nat → RetryResult
  | procs, 0 =>
    let (procs', ok) := runPass procs
    if ok then
      { procs := procs', deliveries := 1, hookCalls := 0, delays := []
        success := true }
    else
      { procs := procs', deliveries := 0
        hookCalls := if hasHook then eventsLen else 0
        delays := [], success := false }
  | procs, r + 1 =>
    let (procs', ok) := runPass procs
    if ok then
      { procs := procs', deliveries := 1, hookCalls := 0, delays := []
        success := true }
    else
      let retried :=
        processWithRetryAux maxRetries eventsLen hasHook backoff procs' r
      { retried with
          delays := delayFor backoff (maxRetries - (r + 1)) :: retried.delays }

/-- Entry point of `processWithRetry` (`attempt = 0`). -/
def processWithRetry (maxRetries eventsLen : Nat) (hasHook : Bool)
    (backoff : Backoff) (procs : List (Processor × Nat)) : RetryResult :=
  processWithRetryAux maxRetries eventsLen hasHook backoff procs maxRetries

/-- An event document as seen by the consumer's collection-group query. -/
structure PolledEvent where
  globalPosition : Nat
  streamVersion : Nat
  deriving DecidableEq

/-- The poll query: `globalPosition > checkpoint` (all events when no
checkpoint), ordered ascending (the store list is kept in that order),
`limit(100)`. -/
def queryPage (allEvents : List PolledEvent) (checkpoint : Option Nat) :
    List PolledEvent :=
  let filtered : List PolledEvent := match checkpoint with
    | some c => allEvents.filter fun e => c < e.globalPosition
    | none => allEvents
  filtered.take 100

/-- Observable outcome of one iteration of the consumer's `poll` loop. -/
structure PollResult where
  checkpoint : Option Nat
  procs : List (Processor × Nat)
  deliveries : Nat
  hookCalls : Nat
  pageLen : Nat

/-- One iteration of `poll`: fetch the page beyond the checkpoint; if empty do
nothing; otherwise run `processWithRetry`; on success advance the checkpoint
to the page's last `globalPosition` and save it; a rethrow out of
`processWithRetry` is caught by the loop's `catch`, which saves nothing. -/
def pollStep (allEvents : List PolledEvent) (checkpoint : Option Nat)
    (procs : List (Processor × Nat)) (maxRetries : Nat) (backoff : Backoff)
    (hasHook : Bool) : PollResult :=
  let page := queryPage allEvents checkpoint
  match page.getLast? with
  | none =>
    { checkpoint := checkpoint, procs := procs, deliveries := 0
      hookCalls := 0, pageLen := 0 }
  | some lastDoc =>
    let r := processWithRetry maxRetries page.length hasHook backoff procs
    { checkpoint :=
        if r.success then some lastDoc.globalPosition else checkpoint
      procs := r.procs
      deliveries := r.deliveries
      hookCalls := r.hookCalls
      pageLen := page.length }

/-! ## RealtimeDB multi-stream projection

`realtimeDBMultiStreamProjection(...).handle` groups the batch by document id
(JS `Map` insertion order), then per group: load the document, strip
`_metadata`, seed the state (`initialState` only when declared and no document
exists), left-fold `evolve` — which may throw, modelled as `Except` — and
`set` the result (Realtime Database `set(null)` removes the node). -/

/-- `_metadata` of a read-model document. -/
structure ReadModelMetadata where
  streamId : String
  name : String
  schemaVersion : Nat
  streamPosition : Nat
  deriving DecidableEq

/-- A stored read-model document: its fields plus `_metadata`. -/
structure ReadModel (Doc : Type) where
  doc : Doc
  meta : ReadModelMetadata
  deriving DecidableEq

/-- Association-list erase (RTDB `set(null)`). -/
def eraseA {β : Type} : List (String × β) → String → List (String × β)
  | [], _ => []
  | (k, v) :: rest, key =>
    if k = key then eraseA rest key else (k, v) :: eraseA rest key

/-- Options of `realtimeDBMultiStreamProjection` after construction-time
defaults (`schemaVersion ?? 1`).  `initialState = some init` corresponds to
`'initialState' in options`; `evolve` throwing is an `Except.error`. -/
structure MultiStreamProjectionOptions (Doc α μ ε : Type) where
  collectionName : String
  getDocumentId : ReadEvent α μ → String
  schemaVersion : Nat
  evolve : Option Doc → ReadEvent α μ → Except ε (Option Doc)
  initialState : Option (Unit → Doc)

/-- Append an event to its id's group, keeping `Map` insertion order. -/
def insertGrouped {E : Type} :
    List (String × List E) → String → E → List (String × List E)
  | [], key, e => [(key, [e])]
  | (k, es) :: rest, key, e =>
    if k = key then (k, es ++ [e]) :: rest
    else (k, es) :: insertGrouped rest key e

/-- `eventsByDocId`: group the batch by `getDocumentId`. -/
def groupByDocId {E : Type} (getId : E → String) (events : List E) :
    List (String × List E) :=
  events.foldl (fun gs e => insertGrouped gs (getId e) e) []

/-- The evolve loop over one document's events; a throw aborts the loop. -/
def foldEvolve {Doc α μ ε : Type}
    (evolve : Option Doc → ReadEvent α μ → Except ε (Option Doc)) :
    Option Doc → List (ReadEvent α μ) → Except ε (Option Doc)
  | st, [] => .ok st
  | st, e :: rest =>
    match evolve st e with
    | .ok st' => foldEvolve evolve st' rest
    | .error err => .error err

/-- The body of the per-document loop: load and strip the current document,
seed the state, fold `evolve`, then `docRef.set(...)` — a full replace for a
non-null fold, node removal for a null one.  An `evolve` throw leaves the
collection untouched for this document. -/
def processGroup {Doc α μ ε : Type}
    (opts : MultiStreamProjectionOptions Doc α μ ε)
    (coll : List (String × ReadModel Doc)) (docId : String)
    (docEvents : List (ReadEvent α μ)) :
    Except ε (List (String × ReadModel Doc)) :=
  let currentDoc : Option Doc := (lookupA coll docId).map ReadModel.doc
  let state0 : Option Doc := match opts.initialState with
    | some init => some (currentDoc.getD (init ()))
    | none => currentDoc
  match foldEvolve opts.evolve state0 docEvents with
  | .error err => .error err
  | .ok state =>
    let lastEvent := docEvents.getLast?
    let meta : ReadModelMetadata :=
      { streamId := (lastEvent.map fun e => e.metadata.streamName).getD docId
        name := opts.collectionName
        schemaVersion := opts.schemaVersion
        streamPosition :=
          (lastEvent.map fun e => e.metadata.streamPosition).getD 0 }
    match state with
    | some d => .ok (setA coll docId { doc := d, meta := meta })
    | none => .ok (eraseA coll docId)

/-- The `for (const [docId, docEvents] of eventsByDocId)` loop: groups are
processed sequentially; a throw escapes `handle`, keeping the writes already
made and skipping every remaining group. -/
def handleGroups {Doc α μ ε : Type}
    (opts : MultiStreamProjectionOptions Doc α μ ε) :
    List (String × ReadModel Doc) → List (String × List (ReadEvent α μ)) →
    List (String × ReadModel Doc) × Option ε
  | coll, [] => (coll, none)
  | coll, (docId, docEvents) :: rest =>
    match processGroup opts coll docId docEvents with
    | .ok coll' => handleGroups opts coll' rest
    | .error err => (coll, some err)

/-- `realtimeDBMultiStreamProjection(...).handle` over a batch: group by
document id, then run the per-document loop. -/
def handleMulti {Doc α μ ε : Type}
    (opts : MultiStreamProjectionOptions Doc α μ ε)
    (coll : List (String × ReadModel Doc)) (events : List (ReadEvent α μ)) :
    List (String × ReadModel Doc) × Option ε :=
  handleGroups opts coll (groupByDocId opts.getDocumentId events)

/-! ## Shared lemmas -/

theorem lookupA_setA_self {β : Type} (l : List (String × β)) (k : String)
    (v : β) : lookupA (setA l k v) k = some v := by
  induction l with
  | nil => simp [setA, lookupA]
  | cons kv rest ih =>
    by_cases h : kv.1 = k
    · simp [setA, h, lookupA]
    · cases kv with
      | mk k' w => simp only at h; simp [setA, h, lookupA, ih]

theorem lookupA_eraseA_self {β : Type} (l : List (String × β)) (k : String) :
    lookupA (eraseA l k) k = none := by
  induction l with
  | nil => simp [eraseA, lookupA]
  | cons kv rest ih =>
    by_cases h : kv.1 = k
    · cases kv with
      | mk k' w => simp only at h; simp [eraseA, h, ih]
    · cases kv with
      | mk k' w => simp only at h; simp [eraseA, h, lookupA, ih]

theorem roundToDouble_of_le (n : Nat) (h : n ≤ 2 ^ 53) : roundToDouble n = n := by
  unfold roundToDouble
  rw [if_pos h]

/-! ## Claim theorems -/

/-- C1: appending a non-empty batch of `k` events at an `expectedVersion`
equal to the stream's current version succeeds with
`nextVersion = currentVersion + k` — `k - 1` for a stream with no prior
version, matching `currentVersion = -1` — and `createdNewStream` is true
exactly when the stream had no prior version. -/
theorem appendAtCurrentVersion {α μ : Type} (s : Store α μ)
    (streamName : String) (events : List (InputEvent α μ))
    (hne : events ≠ []) :
    match appendToStream s streamName events
        (match s.currentVersion streamName with
          | some v => .exact v
          | none => .streamDoesNotExist) with
    | .ok (_, r) =>
        r.nextExpectedStreamVersion =
          (match s.currentVersion streamName with
            | some v => v + events.length
            | none => events.length - 1) ∧
        r.createdNewStream = (s.currentVersion streamName).isNone
    | .error _ => False := by
  cases events with
  | nil => exact absurd rfl hne
  | cons e es =>
    cases h : s.streamDoc streamName with
    | none =>
      simp [appendToStream, Store.currentVersion, h, versionCheck]
    | some d =>
      simp [appendToStream, Store.currentVersion, h, versionCheck]
      ring

/-- C1 witness: an append of one event to a fresh stream returns
`nextVersion = 0` and `createdNewStream = true`. -/
theorem appendAtCurrentVersion_witness :
    ([(⟨"A", 1, 2⟩ : InputEvent Nat Nat)] ≠ []) ∧
    (match appendToStream (⟨[], [], none⟩ : Store Nat Nat) "s"
        [⟨"A", 1, 2⟩] .streamDoesNotExist with
      | .ok (_, r) =>
          r.nextExpectedStreamVersion = 0 ∧ r.createdNewStream = true
      | .error _ => False) :=
  ⟨by decide,
    appendAtCurrentVersion (⟨[], [], none⟩ : Store Nat Nat) "s"
      [⟨"A", 1, 2⟩] (by decide)⟩

/-- C2: under each mismatching policy — must-exist against an absent stream,
must-not-exist against an existing one, exact version different from the
actual one — append raises `ExpectedVersionConflictError` carrying the actual
and the expected version, and the store (events, global counter, stream
metadata) is exactly as before. -/
theorem appendVersionConflict {α μ : Type} (s : Store α μ)
    (streamName : String) (events : List (InputEvent α μ))
    (expected : ExpectedStreamVersion) (hne : events ≠ [])
    (hmis :
      (expected = .streamExists ∧ s.currentVersion streamName = none) ∨
      (expected = .streamDoesNotExist ∧ s.currentVersion streamName ≠ none) ∨
      (∃ v, expected = .exact v ∧ s.currentVersion streamName ≠ some v)) :
    runAppend s streamName events expected =
      (s, .error (.conflict (s.currentVersion streamName) expected)) := by
  have hvc : versionCheck expected (s.currentVersion streamName) =
      some (.conflict (s.currentVersion streamName) expected) := by
    rcases hmis with ⟨he, hc⟩ | ⟨he, hc⟩ | ⟨v, he, hc⟩ <;> subst he
    · rw [hc]; rfl
    · cases hcur : s.currentVersion streamName with
      | none => exact absurd hcur hc
      | some w => rfl
    · cases hcur : s.currentVersion streamName with
      | none => rfl
      | some w =>
        have hvw : ¬v = w := fun hvw => hc (by rw [hcur, hvw])
        simp [versionCheck, hvw]
  cases events with
  | nil => exact absurd rfl hne
  | cons e es =>
    simp [runAppend, appendToStream, hvc]

/-- C2 witness: an exact expectation of 3 against a stream at version 5
conflicts, carrying actual 5 and expected 3, and leaves the store intact. -/
theorem appendVersionConflict_witness :
    (([(⟨"A", 1, 2⟩ : InputEvent Nat Nat)] ≠ []) ∧
      (∃ v, ExpectedStreamVersion.exact 3 = .exact v ∧
        Store.currentVersion (⟨[("s", ⟨5⟩)], [], none⟩ : Store Nat Nat) "s" ≠
          some v)) ∧
    runAppend (⟨[("s", ⟨5⟩)], [], none⟩ : Store Nat Nat) "s"
        [⟨"A", 1, 2⟩] (.exact 3) =
      ((⟨[("s", ⟨5⟩)], [], none⟩ : Store Nat Nat),
        .error (.conflict (some 5) (.exact 3))) :=
  ⟨⟨by decide, ⟨3, rfl, by decide⟩⟩,
    appendVersionConflict (⟨[("s", ⟨5⟩)], [], none⟩ : Store Nat Nat) "s"
      [⟨"A", 1, 2⟩] (.exact 3) (by decide)
      (.inr (.inr ⟨3, rfl, by decide⟩))⟩

/-- C3: `aggregateStream` on a missing stream returns `initialState()`
unfolded with `streamExists = false` for every `evolve` (so `evolve` is never
invoked); on an existing stream its state is the left fold of `evolve` over
`initialState()` across the stream's events in stream order. -/
theorem aggregateStreamFolds {α μ σ : Type} (s : Store α μ)
    (streamName : String) (evolve : σ → ReadEvent α μ → σ)
    (initialState : Unit → σ) (opts : ReadStreamOptions) :
    (s.streamDoc streamName = none →
      aggregateStream s streamName evolve initialState opts =
        { state := initialState (), currentStreamVersion := none,
          streamExists := false }) ∧
    (s.streamDoc streamName ≠ none →
      (aggregateStream s streamName evolve initialState opts).state =
        (readStream s streamName opts).events.foldl evolve (initialState ()) ∧
      (aggregateStream s streamName evolve initialState opts).streamExists =
        true) := by
  cases h : s.streamDoc streamName <;>
    simp [aggregateStream, readStream, h]

/-- C9: reading a never-appended stream is not an error: both readStream
variants return the does-not-exist version sentinel (resp.
`streamExists = false`) and an empty event list. -/
theorem readNeverAppendedStream {α μ : Type} (s : Store α μ)
    (streamName : String) (opts : ReadStreamOptions)
    (h : s.streamDoc streamName = none) :
    readStream s streamName opts =
      { currentStreamVersion := none, events := [] } ∧
    readStreamWithExists s streamName opts =
      { currentStreamVersion := none, events := [], streamExists := false } := by
  unfold readStream readStreamWithExists
  rw [h]
  exact ⟨rfl, rfl⟩

/-- C9 witness: reading stream "s" of an empty store. -/
theorem readNeverAppendedStream_witness :
    (Store.streamDoc (⟨[], [], none⟩ : Store Nat Nat) "s" = none) ∧
    readStream (⟨[], [], none⟩ : Store Nat Nat) "s" {} =
      { currentStreamVersion := none, events := [] } ∧
    readStreamWithExists (⟨[], [], none⟩ : Store Nat Nat) "s" {} =
      { currentStreamVersion := none, events := [], streamExists := false } :=
  ⟨rfl, readNeverAppendedStream (⟨[], [], none⟩ : Store Nat Nat) "s" {} rfl⟩

/-- Store/evolve/initial state used by the aggregate witness: a stream at
version 2 holding events A, B, C. -/
def store3 : Store Nat Nat :=
  ⟨[("s", ⟨2⟩)],
    [("s", [(padKey 0, ⟨"A", 1, 0, 0, 0⟩), (padKey 1, ⟨"B", 2, 0, 1, 1⟩),
      (padKey 2, ⟨"C", 3, 0, 2, 2⟩)])], some 3⟩

/-- Trace evolve: records each folded event's data. -/
def ev3 : List Nat → ReadEvent Nat Nat → List Nat := fun l e => l ++ [e.data]

/-- Initial state for the aggregate witness. -/
def init3 : Unit → List Nat := fun _ => []

/-- C3 witness: over a stream holding events A, B, C the aggregate state is
`evolve (evolve (evolve initial A) B) C`. -/
theorem aggregateStreamFolds_witness :
    (Store.streamDoc store3 "s" ≠ none) ∧
    (aggregateStream store3 "s" ev3 init3 {}).state =
      ev3 (ev3 (ev3 (init3 ()) (toReadEvent "s" ⟨"A", 1, 0, 0, 0⟩))
          (toReadEvent "s" ⟨"B", 2, 0, 1, 1⟩))
        (toReadEvent "s" ⟨"C", 3, 0, 2, 2⟩) := by
  refine ⟨by decide, ?_⟩
  have h := (aggregateStreamFolds store3 "s" ev3 init3 {}).2 (by decide)
  rw [h.1]
  decide

/-- C4: with `maxRetries = 3`, a single processor that fails on its first two
invocations and succeeds on the third is invoked exactly 3 times, and the
page is delivered (one successful full pass) exactly once. -/
theorem processorFailsTwiceThenSucceeds (p : Processor) (eventsLen : Nat)
    (hasHook : Bool) (backoff : Backoff)
    (h0 : p 0 = false) (h1 : p 1 = false) (h2 : p 2 = true) :
    (processWithRetry 3 eventsLen hasHook backoff [(p, 0)]).procs =
      [(p, 3)] ∧
    (processWithRetry 3 eventsLen hasHook backoff [(p, 0)]).deliveries = 1 ∧
    (processWithRetry 3 eventsLen hasHook backoff [(p, 0)]).success = true := by
  have e0 : runPass [(p, 0)] = ([(p, 1)], false) := by simp [runPass, h0]
  have e1 : runPass [(p, 1)] = ([(p, 2)], false) := by simp [runPass, h1]
  have e2 : runPass [(p, 2)] = ([(p, 3)], true) := by simp [runPass, h2]
  simp [processWithRetry, processWithRetryAux, e0, e1, e2]

/-- Processor failing its first two invocations, succeeding afterwards. -/
def failTwiceProc : Processor := fun n => decide (2 ≤ n)

/-- C4 witness: the fails-twice processor under `maxRetries = 3`. -/
theorem processorFailsTwiceThenSucceeds_witness :
    (failTwiceProc 0 = false) ∧ (failTwiceProc 1 = false) ∧
    (failTwiceProc 2 = true) ∧
    (processWithRetry 3 7 false .linear [(failTwiceProc, 0)]).procs =
      [(failTwiceProc, 3)] ∧
    (processWithRetry 3 7 false .linear [(failTwiceProc, 0)]).deliveries = 1 := by
  have h := processorFailsTwiceThenSucceeds failTwiceProc 7 false .linear
    rfl rfl rfl
  exact ⟨rfl, rfl, rfl, h.1, h.2.1⟩

/-- `processWithRetry` reports failure only with the hook fired once per
event of the page (`for (const event of events) await onError(...)`). -/
theorem hookCalls_of_failure (maxRetries eventsLen : Nat) (hasHook : Bool)
    (backoff : Backoff) :
    ∀ remaining procs,
      (processWithRetryAux maxRetries eventsLen hasHook backoff procs
        remaining).success = false →
      (processWithRetryAux maxRetries eventsLen hasHook backoff procs
        remaining).hookCalls = if hasHook then eventsLen else 0 := by
  intro remaining
  induction remaining with
  | zero =>
    intro procs h
    rcases hr : runPass procs with ⟨procs', ok⟩
    cases ok with
    | true => simp [processWithRetryAux, hr] at h
    | false => simp [processWithRetryAux, hr]
  | succ r ih =>
    intro procs h
    rcases hr : runPass procs with ⟨procs', ok⟩
    cases ok with
    | true => simp [processWithRetryAux, hr] at h
    | false =>
      simp only [processWithRetryAux, hr] at h ⊢
      exact ih procs' h

/-- C5 (amended): when delivery of the fetched page fails with the retry
budget exhausted, the error hook fires once per event of the page (not once
per page), the checkpoint is not advanced, and the next poll's query fetches
the same page. -/
theorem retryExhaustionHoldsCheckpoint (allEvents : List PolledEvent)
    (checkpoint : Option Nat) (procs : List (Processor × Nat))
    (maxRetries : Nat) (backoff : Backoff)
    (hfail : (processWithRetry maxRetries
        (queryPage allEvents checkpoint).length true backoff procs).success =
      false) :
    (pollStep allEvents checkpoint procs maxRetries backoff true).hookCalls =
      (queryPage allEvents checkpoint).length ∧
    (pollStep allEvents checkpoint procs maxRetries backoff true).checkpoint =
      checkpoint ∧
    queryPage allEvents
        (pollStep allEvents checkpoint procs maxRetries backoff
          true).checkpoint =
      queryPage allEvents checkpoint := by
  rcases hl : (queryPage allEvents checkpoint).getLast? with _ | lastDoc
  · have hnil : queryPage allEvents checkpoint = [] := by
      cases hq : queryPage allEvents checkpoint with
      | nil => rfl
      | cons x xs => rw [hq] at hl; simp [List.getLast?] at hl
    simp [pollStep, hl, hnil]
  · have hfail' : (processWithRetryAux maxRetries
        (queryPage allEvents checkpoint).length true backoff procs
        maxRetries).success = false := hfail
    have hhc := hookCalls_of_failure maxRetries
      (queryPage allEvents checkpoint).length true backoff maxRetries procs
      hfail
    simp [pollStep, hl, processWithRetry] at hhc ⊢
    simp [hhc, hfail']

/-- Single processor whose every invocation fails. -/
def alwaysFailProc : Processor := fun _ => false

/-- C5 counterexample: a two-event page whose delivery exhausts
`maxRetries = 3` fires the error hook twice — once per event — not once. -/
theorem errorHookOncePerPageCounterexample :
    (pollStep [⟨1, 0⟩, ⟨2, 0⟩] none [(alwaysFailProc, 0)] 3 .linear
      true).hookCalls = 2 ∧ (2 : Nat) ≠ 1 :=
  ⟨rfl, by decide⟩

/-- C5 witness: the same run through the amended theorem — two hook calls and
an unchanged checkpoint. -/
theorem retryExhaustionHoldsCheckpoint_witness :
    ((processWithRetry 3 (queryPage [⟨1, 0⟩, ⟨2, 0⟩] none).length true .linear
        [(alwaysFailProc, 0)]).success = false) ∧
    (pollStep [⟨1, 0⟩, ⟨2, 0⟩] none [(alwaysFailProc, 0)] 3 .linear
        true).hookCalls = 2 ∧
    (pollStep [⟨1, 0⟩, ⟨2, 0⟩] none [(alwaysFailProc, 0)] 3 .linear
        true).checkpoint = none := by
  have h := retryExhaustionHoldsCheckpoint [⟨1, 0⟩, ⟨2, 0⟩] none
    [(alwaysFailProc, 0)] 3 .linear rfl
  refine ⟨rfl, ?_, h.2.1⟩
  rw [h.1]
  rfl

/-- Delays recorded by an always-failing run, indexed by attempt number. -/
theorem delays_of_alwaysFail (maxRetries eventsLen : Nat) (hasHook : Bool)
    (backoff : Backoff) (p : Processor) (hp : ∀ n, p n = false) :
    ∀ remaining c, remaining ≤ maxRetries →
      (processWithRetryAux maxRetries eventsLen hasHook backoff [(p, c)]
        remaining).delays =
      (List.range' (maxRetries - remaining) remaining).map
        (delayFor backoff) := by
  intro remaining
  induction remaining with
  | zero => intro c _; simp [processWithRetryAux, runPass, hp c]
  | succ r ih =>
    intro c hle
    have hr : runPass [(p, c)] = ([(p, c + 1)], false) := by
      simp [runPass, hp c]
    simp only [processWithRetryAux, hr, Bool.false_eq_true, if_neg,
      ite_false]
    rw [ih (c + 1) (Nat.le_of_succ_le hle)]
    rw [List.range'_succ]
    have harith : maxRetries - (r + 1) + 1 = maxRetries - r := by omega
    rw [harith, List.map_cons]

/-- C7 (amended): the backoff delay before re-delivering the page at retry
attempt `a` (0-based) is `2^a × 1000 ms` under the exponential policy and
`(a + 1) × 1000 ms` — not `a × interval` — under the linear policy; an
always-failing run records exactly the delays of attempts
`0 .. maxRetries-1`. -/
theorem backoffDelaySchedule (maxRetries eventsLen : Nat) (hasHook : Bool)
    (backoff : Backoff) (p : Processor) (hp : ∀ n, p n = false) :
    (processWithRetry maxRetries eventsLen hasHook backoff
        [(p, 0)]).delays =
      (List.range maxRetries).map (delayFor backoff) ∧
    (∀ a, delayFor .linear a = (a + 1) * 1000) ∧
    (∀ a, delayFor .exponential a = 2 ^ a * 1000) := by
  refine ⟨?_, fun a => rfl, fun a => rfl⟩
  rw [processWithRetry,
    delays_of_alwaysFail maxRetries eventsLen hasHook backoff p hp
      maxRetries 0 (Nat.le_refl maxRetries),
    Nat.sub_self, List.range_eq_range']

/-- C7 counterexample: the claim's linear formula predicts a first delay of
`0 × interval = 0`; the code waits `(0 + 1) × 1000 = 1000` ms before the
first re-delivery. -/
theorem linearBackoffCounterexample :
    (processWithRetry 1 0 false .linear [(alwaysFailProc, 0)]).delays =
      [1000] ∧ (1000 : Nat) ≠ 0 * 1000 :=
  ⟨rfl, by decide⟩

/-- C7 witness: an always-failing run with `maxRetries = 3` under linear
backoff waits 1000, 2000, 3000 ms. -/
theorem backoffDelaySchedule_witness :
    (processWithRetry 3 2 true .linear [(alwaysFailProc, 0)]).delays =
      [1000, 2000, 3000] := by
  have h := (backoffDelaySchedule 3 2 true .linear alwaysFailProc
    (fun _ => rfl)).1
  rw [h]
  rfl

/-! ## Projection claims -/

/-- Evolve for the isolation counterexample: throws on a zero payload,
otherwise stores the payload. -/
def cexEvolve : Option Nat → ReadEvent Nat Unit → Except Unit (Option Nat) :=
  fun _ e => if e.data = 0 then .error () else .ok (some e.data)

/-- Multi-stream projection used by the isolation counterexample. -/
def cexOpts : MultiStreamProjectionOptions Nat Nat Unit Unit :=
  { collectionName := "docs", getDocumentId := fun e => e.metadata.streamName
    schemaVersion := 1, evolve := cexEvolve, initialState := none }

/-- Event whose evolve throws, grouped under document id "A". -/
def evA : ReadEvent Nat Unit := ⟨"T", 0, ⟨(), "A", 1, 1⟩⟩

/-- Well-behaved event grouped under document id "B". -/
def evB : ReadEvent Nat Unit := ⟨"T", 5, ⟨(), "B", 1, 2⟩⟩

/-- C6 counterexample: in the batch [evA, evB], evolve throws for document
"A", and document "B" — a different id in the same batch — is never written,
although handling [evB] alone writes it.  Per-document isolation fails for
ids grouped after the throwing one. -/
theorem perDocumentIsolationCounterexample :
    lookupA (handleMulti cexOpts [] [evA, evB]).1 "B" = none ∧
    lookupA (handleMulti cexOpts [] [evB]).1 "B" =
      some ⟨5, ⟨"B", "docs", 1, 1⟩⟩ :=
  ⟨rfl, rfl⟩

/-- C6 (amended): a throwing evolve aborts the failing document's write and
the writes of every document id grouped after it in batch order; the ids
grouped before it are processed and written exactly as if the rest of the
batch were absent. -/
theorem failingEvolveAbortsSuffix {Doc α μ ε : Type}
    (opts : MultiStreamProjectionOptions Doc α μ ε)
    (coll : List (String × ReadModel Doc))
    (gs1 : List (String × List (ReadEvent α μ))) (docId : String)
    (docEvents : List (ReadEvent α μ))
    (gs2 : List (String × List (ReadEvent α μ))) (err : ε)
    (hpre : (handleGroups opts coll gs1).2 = none)
    (hfail : processGroup opts (handleGroups opts coll gs1).1 docId
      docEvents = .error err) :
    handleGroups opts coll (gs1 ++ (docId, docEvents) :: gs2) =
      ((handleGroups opts coll gs1).1, some err) := by
  induction gs1 generalizing coll with
  | nil =>
    simp only [handleGroups] at hfail ⊢
    simp [handleGroups, hfail]
  | cons g rest ih =>
    rcases g with ⟨gid, gevs⟩
    cases hg : processGroup opts coll gid gevs with
    | error e =>
      simp only [handleGroups, hg] at hpre
      exact absurd hpre (by simp)
    | ok coll' =>
      simp only [handleGroups, hg] at hpre hfail
      simp only [List.cons_append, handleGroups, hg]
      exact ih coll' hpre hfail

/-- C6 witness for the amended theorem: "B" is grouped first and written;
the throw on "A" ends the batch with "B"'s write retained. -/
theorem failingEvolveAbortsSuffix_witness :
    ((handleGroups cexOpts [] [("B", [evB])]).2 = none) ∧
    handleGroups cexOpts [] [("B", [evB]), ("A", [evA])] =
      ([("B", ⟨5, ⟨"B", "docs", 1, 1⟩⟩)], some ()) :=
  ⟨rfl,
    failingEvolveAbortsSuffix cexOpts [] [("B", [evB])] "A" [evA] [] ()
      rfl rfl⟩

/-- C8: in the per-document write of the projection engine, a fold ending in
null for a previously existing document results in the document's removal —
absent on the next read, no soft-delete flag — while a non-null fold writes
the folded document (with fresh `_metadata`) as a full replace. -/
theorem nullFoldDeletesNonNullReplaces {Doc α μ ε : Type}
    (opts : MultiStreamProjectionOptions Doc α μ ε)
    (coll : List (String × ReadModel Doc)) (docId : String)
    (docEvents : List (ReadEvent α μ)) :
    (∀ prior, lookupA coll docId = some prior →
      foldEvolve opts.evolve (some prior.doc) docEvents = .ok none →
      processGroup opts coll docId docEvents = .ok (eraseA coll docId) ∧
      lookupA (eraseA coll docId) docId = none) ∧
    (∀ d, foldEvolve opts.evolve
        (match opts.initialState with
          | some init => some (((lookupA coll docId).map ReadModel.doc).getD
              (init ()))
          | none => (lookupA coll docId).map ReadModel.doc) docEvents =
        .ok (some d) →
      processGroup opts coll docId docEvents =
        .ok (setA coll docId
          ⟨d, ⟨((docEvents.getLast?).map fun e => e.metadata.streamName).getD
              docId,
            opts.collectionName, opts.schemaVersion,
            ((docEvents.getLast?).map fun e =>
              e.metadata.streamPosition).getD 0⟩⟩) ∧
      lookupA (setA coll docId
          ⟨d, ⟨((docEvents.getLast?).map fun e => e.metadata.streamName).getD
              docId,
            opts.collectionName, opts.schemaVersion,
            ((docEvents.getLast?).map fun e =>
              e.metadata.streamPosition).getD 0⟩⟩) docId =
        some ⟨d, ⟨((docEvents.getLast?).map fun e =>
              e.metadata.streamName).getD docId,
          opts.collectionName, opts.schemaVersion,
          ((docEvents.getLast?).map fun e =>
            e.metadata.streamPosition).getD 0⟩⟩) := by
  constructor
  · intro prior hprior hfold
    have hstate : (match opts.initialState with
        | some init => some (((lookupA coll docId).map ReadModel.doc).getD
            (init ()))
        | none => (lookupA coll docId).map ReadModel.doc) =
        some prior.doc := by
      cases opts.initialState <;> simp [hprior]
    refine ⟨?_, lookupA_eraseA_self coll docId⟩
    unfold processGroup
    simp only [hstate, hfold]
  · intro d hfold
    refine ⟨?_, lookupA_setA_self coll docId _⟩
    unfold processGroup
    simp only [hfold]

/-- Evolve for the delete/replace witness: payload 0 folds to null, anything
else replaces the document with the payload. -/
def delEvolve : Option Nat → ReadEvent Nat Unit → Except Unit (Option Nat) :=
  fun _ e => if e.data = 0 then .ok none else .ok (some e.data)

/-- Projection used by the delete/replace witness. -/
def delOpts : MultiStreamProjectionOptions Nat Nat Unit Unit :=
  { collectionName := "docs", getDocumentId := fun e => e.metadata.streamName
    schemaVersion := 1, evolve := delEvolve, initialState := none }

/-- A collection holding a previously projected document "A". -/
def delColl : List (String × ReadModel Nat) := [("A", ⟨7, ⟨"A", "docs", 1, 1⟩⟩)]

/-- Event folding document "A" to null. -/
def evDel : ReadEvent Nat Unit := ⟨"T", 0, ⟨(), "A", 2, 3⟩⟩

/-- Event folding document "A" to 9. -/
def evSet : ReadEvent Nat Unit := ⟨"T", 9, ⟨(), "A", 2, 3⟩⟩

/-- C8 witness: the existing document "A" is deleted by a null fold and
fully replaced by a non-null fold. -/
theorem nullFoldDeletesNonNullReplaces_witness :
    (lookupA delColl "A" = some ⟨7, ⟨"A", "docs", 1, 1⟩⟩) ∧
    (processGroup delOpts delColl "A" [evDel] = .ok [] ∧
      lookupA ([] : List (String × ReadModel Nat)) "A" = none) ∧
    (processGroup delOpts delColl "A" [evSet] =
        .ok [("A", ⟨9, ⟨"A", "docs", 1, 2⟩⟩)] ∧
      lookupA [("A", (⟨9, ⟨"A", "docs", 1, 2⟩⟩ : ReadModel Nat))] "A" =
        some ⟨9, ⟨"A", "docs", 1, 2⟩⟩) := by
  have hA := (nullFoldDeletesNonNullReplaces delOpts delColl "A" [evDel]).1
    ⟨7, ⟨"A", "docs", 1, 1⟩⟩ rfl rfl
  have hB := (nullFoldDeletesNonNullReplaces delOpts delColl "A" [evSet]).2
    9 rfl
  exact ⟨rfl, hA, hB⟩

/-! ## Number narrowing round trip -/

/-- Indexing the written event documents: when every assigned stream version
and global position stays within `2^53`, the `Number(...)` narrowing stored
exactly the assigned values. -/
theorem writeEvents_getElem {α μ : Type} :
    ∀ (events : List (InputEvent α μ)) (sv gp i : Nat) (e : InputEvent α μ),
      events[i]? = some e → sv + events.length ≤ 2 ^ 53 →
      gp + events.length ≤ 2 ^ 53 →
      (writeEvents events sv gp)[i]? =
        some (padKey (sv + i),
          { type := e.type, data := e.data, metadata := e.metadata
            globalPosition := gp + i, streamVersion := sv + i }) := by
  intro events
  induction events with
  | nil => intro sv gp i e hie _ _; simp at hie
  | cons x xs ih =>
    intro sv gp i e hie hsv hgp
    simp only [List.length_cons] at hsv hgp
    cases i with
    | zero =>
      simp only [List.getElem?_cons_zero, Option.some.injEq] at hie
      subst hie
      simp only [writeEvents, List.getElem?_cons_zero, Option.some.injEq]
      rw [roundToDouble_of_le sv (by omega), roundToDouble_of_le gp (by omega)]
      simp
    | succ j =>
      simp only [writeEvents, List.getElem?_cons_succ] at hie ⊢
      rw [ih (sv + 1) (gp + 1) j e hie (by omega) (by omega)]
      have h1 : sv + 1 + j = sv + (j + 1) := by omega
      have h2 : gp + 1 + j = gp + (j + 1) := by omega
      rw [h1, h2]

/-- C10: the stream versions and global positions assigned by an append are
persisted through `Number(...)`; when all of them are strictly below `2^53`
the bigint values reconstructed by `readStream` equal the assigned values,
while at `2^53 + 1` the narrowing itself already loses exactness. -/
theorem numberRoundTripBelow2Pow53 {α μ : Type} (s : Store α μ)
    (streamName : String) (events : List (InputEvent α μ))
    (expected : ExpectedStreamVersion) (s' : Store α μ)
    (r : AppendToStreamResult)
    (h : appendToStream s streamName events expected = .ok (s', r))
    (hsv : (match s.currentVersion streamName with
        | some v => v + 1
        | none => 0) + events.length ≤ 2 ^ 53)
    (hgp : s.counter.getD 0 + events.length ≤ 2 ^ 53) :
    (∀ i e, events[i]? = some e →
      (readStream s' streamName
          {}).events[(s.eventsOf streamName).length + i]? =
        some { type := e.type, data := e.data
               metadata :=
                 { custom := e.metadata, streamName := streamName
                   streamPosition := (match s.currentVersion streamName with
                     | some v => v + 1
                     | none => 0) + i
                   globalPosition := s.counter.getD 0 + i } }) ∧
    roundToDouble (2 ^ 53 + 1) ≠ 2 ^ 53 + 1 := by
  refine ⟨?_, by decide⟩
  intro i e hie
  cases events with
  | nil => simp at hie
  | cons e0 es =>
    cases hvc : versionCheck expected (s.currentVersion streamName) with
    | some err => simp [appendToStream, hvc] at h
    | none =>
      simp only [appendToStream, List.isEmpty_cons, Bool.false_eq_true,
        if_false, hvc, Except.ok.injEq, Prod.mk.injEq] at h
      obtain ⟨hs', hr⟩ := h
      subst hs'
      simp only [readStream, Store.streamDoc, Store.eventsOf,
        lookupA_setA_self, Option.getD_some, applyQuery]
      rw [List.getElem?_map,
        List.getElem?_append_right (Nat.le_add_right _ i),
        Nat.add_sub_cancel_left,
        writeEvents_getElem (e0 :: es) _ _ i e hie hsv hgp]
      simp [toReadEvent]

/-- C10 witness: one event appended to a fresh stream reads back with
`streamPosition = 0` and `globalPosition = 0`. -/
theorem numberRoundTripBelow2Pow53_witness :
    (appendToStream (⟨[], [], none⟩ : Store Nat Nat) "s" [⟨"A", 1, 2⟩]
        .noConcurrencyCheck =
      .ok (⟨[("s", ⟨0⟩)], [("s", [(padKey 0, ⟨"A", 1, 2, 0, 0⟩)])], some 1⟩,
        ⟨0, true⟩)) ∧
    (readStream (⟨[("s", ⟨0⟩)], [("s", [(padKey 0, ⟨"A", 1, 2, 0, 0⟩)])],
        some 1⟩ : Store Nat Nat) "s" {}).events[(0 : Nat)]? =
      some ⟨"A", 1, ⟨2, "s", 0, 0⟩⟩ := by
  have h := (numberRoundTripBelow2Pow53 (⟨[], [], none⟩ : Store Nat Nat) "s"
    [⟨"A", 1, 2⟩] .noConcurrencyCheck
    ⟨[("s", ⟨0⟩)], [("s", [(padKey 0, ⟨"A", 1, 2, 0, 0⟩)])], some 1⟩
    ⟨0, true⟩ rfl (by decide) (by decide)).1 0 ⟨"A", 1, 2⟩ rfl
  exact ⟨rfl, h⟩

end Emmett
